import Mathlib

/-!
Verification of the thanks-bot message intake and aggregation pipeline
(`src/bot.py`) against its natural-language specification.

The Python source is shallowly embedded:

* Strings are `List Char`; `str.strip()` and `str.split(maxsplit=1)` are
  `pyStrip` and `pySplitMax1`, with Python's whitespace class `isPySpace`.
* The PostgreSQL table `thanks_messages` is an append-only `List Row`;
  the two statistics queries of `show_stats` (`SELECT COUNT(*)` and the
  `GROUP BY recipient_username ORDER BY cnt DESC LIMIT 5`) are
  `totalCount` and `topRecipients`.
* Each handler invocation is a pure function of the inbound event, the
  current table, the event's clock reading, and a database-failure
  oracle (`SaveDB` / `StatsDB`) saying whether `psycopg2.connect` and
  the subsequent cursor operations succeed.  The `datetime.now()` calls
  made while handling one event are modelled by that single clock value.
* Python exception flow is made explicit.  In `save_to_db` and
  `show_stats` the variable `conn` is assigned inside `try`; when
  `psycopg2.connect` itself raises, the `finally: if conn:` block
  raises `UnboundLocalError`, which in `save_to_db` replaces the
  pending `return False` and in `show_stats` escapes the handler.
  `SaveResult.exc` and the `escaped` flag of `HandlerResult` record
  exactly this.
-/

/-- The characters Python's argument-less `str.split` / `str.strip`
treat as whitespace (space, tab, newline, carriage return, vertical
tab, form feed). -/
def isPySpace (c : Char) : Bool :=
  c = ' ' || c = '\t' || c = '\n' || c = '\r' || c = Char.ofNat 11 || c = Char.ofNat 12

/-- Embeds Python `s.strip()`: remove leading and trailing whitespace. -/
def pyStrip (s : List Char) : List Char :=
  ((s.dropWhile isPySpace).reverse.dropWhile isPySpace).reverse

/-- The first whitespace-separated token of `s` (empty when `s` is all
whitespace). -/
def firstTok (s : List Char) : List Char :=
  (s.dropWhile isPySpace).takeWhile (fun c => !isPySpace c)

/-- Everything after the first token of `s`, including the whitespace
run that follows the token. -/
def rawRemainder (s : List Char) : List Char :=
  (s.dropWhile isPySpace).dropWhile (fun c => !isPySpace c)

/-- The remainder after the first token with the separating whitespace
run removed: the second element Python's `s.split(maxsplit=1)` returns. -/
def restTok (s : List Char) : List Char :=
  (rawRemainder s).dropWhile isPySpace

/-- Embeds Python `s.split(maxsplit=1)` with the default (whitespace)
separator: at most two parts, no empty parts. -/
def pySplitMax1 (s : List Char) : List (List Char) :=
  if s.dropWhile isPySpace = [] then []
  else if restTok s = [] then [firstTok s]
  else [firstTok s, restTok s]

/-- The full whitespace-separated token list of `s` (Python
`s.split()` with no arguments); the specification's notion of
"whitespace-separated tokens". -/
def pyTokens : List Char → List (List Char)
  | [] => []
  | c :: cs =>
    if isPySpace c then pyTokens cs
    else (c :: cs.takeWhile (fun x => !isPySpace x)) :: pyTokens (cs.dropWhile (fun x => !isPySpace x))
termination_by l => l.length
decreasing_by
  · simp [List.length_cons]
  · exact Nat.lt_succ_of_le (List.Sublist.length_le (List.dropWhile_sublist _))

/-- A calendar date, the value the `DD-MM-YYYY` string passed for
`message_date` encodes. -/
structure CalDate where
  day : Nat
  month : Nat
  year : Nat
deriving DecidableEq

/-- An instant: the calendar date it falls on plus an abstract tick. -/
structure Timestamp where
  date : CalDate
  tick : Nat
deriving DecidableEq

/-- One row of the `thanks_messages` table (the `SERIAL` id column is
the row's position and is not modelled separately). -/
structure Row where
  sender_id : Int
  sender_username : Option (List Char)
  recipient_username : List Char
  message_text : List Char
  message_date : CalDate
  created_at : Timestamp
deriving DecidableEq

/-- The fields of an inbound chat message the bot reads. -/
structure MsgEvent where
  sender_id : Int
  sender_username : Option (List Char)
  text : List Char
deriving DecidableEq

/-- The outbound reply payloads of `bot.py`: each fixed notice string
is one constructor; data-carrying replies carry the echoed fields. -/
inductive Reply where
  | welcome
  | missingBody
  | invalidRecipient
  | accepted (recipient body : List Char) (date : CalDate)
  | notSaved
  | processingError
  | statsReply (total : Nat) (top : List (List Char × Nat))
  | statsUnavailable
deriving DecidableEq

/-- Failure oracle for one `save_to_db` call: whether
`psycopg2.connect` succeeds, and whether the INSERT/commit succeeds. -/
structure SaveDB where
  connectOk : Bool
  execOk : Bool
deriving DecidableEq

/-- Failure oracle for one `show_stats` call: whether
`psycopg2.connect` succeeds, and whether the two SELECTs succeed. -/
structure StatsDB where
  connectOk : Bool
  queryOk : Bool
deriving DecidableEq

/-- Outcome of `save_to_db`: a normal `return` of a Bool, or an
exception escaping the function; both carry the table afterwards. -/
inductive SaveResult where
  | ret (success : Bool) (table : List Row)
  | exc (table : List Row)
deriving DecidableEq

/-- The row `save_to_db` INSERTs: `message_date` is the date encoded by
`datetime.now().strftime('%d-%m-%Y')` and `created_at` is the
database's `NOW()` default, both modelled by the event's clock. -/
def mkRow (ev : MsgEvent) (recipient text : List Char) (now : Timestamp) : Row :=
  { sender_id := ev.sender_id
    sender_username := ev.sender_username
    recipient_username := recipient
    message_text := text
    message_date := now.date
    created_at := now }

/-- Embeds `save_to_db` (bot.py lines 79-107).  When connecting fails,
`conn` is never assigned, the `except` block's `return False` is
started, and the `finally` block's `if conn:` raises
`UnboundLocalError`, discarding the return: the call raises.  When a
later cursor operation fails, `conn` is bound, the connection is
closed and `False` is returned.  On success the row is appended and
`True` returned. -/
def save_to_db (db : SaveDB) (ev : MsgEvent) (recipient text : List Char)
    (table : List Row) (now : Timestamp) : SaveResult :=
  if db.connectOk then
    if db.execOk then SaveResult.ret true (table ++ [mkRow ev recipient text now])
    else SaveResult.ret false table
  else SaveResult.exc table

/-- Result of the Parser step inlined in `process_message`
(bot.py lines 165-181). -/
inductive ParseResult where
  | ok (recipient body : List Char)
  | missingBody
  | invalidRecipientFormat
deriving DecidableEq

/-- The parse step of `process_message` (bot.py lines 165-181):
strip the text, split with `maxsplit=1`; fewer than two parts is the
missing-body failure; otherwise strip both parts and require the first
to start with `'@'`.  A pure, deterministic function. -/
def parse (txt : List Char) : ParseResult :=
  match pySplitMax1 (pyStrip txt) with
  | [username0, userMessage0] =>
    if (pyStrip username0).head? = some '@' then
      ParseResult.ok (pyStrip username0) (pyStrip userMessage0)
    else ParseResult.invalidRecipientFormat
  | _ => ParseResult.missingBody

/-- What one handler invocation did: the outbound replies it sent, the
table afterwards, and whether an exception escaped the handler. -/
structure HandlerResult where
  replies : List Reply
  table : List Row
  escaped : Bool
deriving DecidableEq

/-- Embeds the `process_message` handler (bot.py lines 161-199).  A
raising `save_to_db` call is caught by the handler's own
`try/except`, which sends the generic processing-error notice. -/
def process_message (ev : MsgEvent) (db : SaveDB) (table : List Row)
    (now : Timestamp) : HandlerResult :=
  match parse ev.text with
  | ParseResult.missingBody => ⟨[Reply.missingBody], table, false⟩
  | ParseResult.invalidRecipientFormat => ⟨[Reply.invalidRecipient], table, false⟩
  | ParseResult.ok username userMessage =>
    match save_to_db db ev username userMessage table now with
    | SaveResult.exc t => ⟨[Reply.processingError], t, false⟩
    | SaveResult.ret true t => ⟨[Reply.accepted username userMessage now.date], t, false⟩
    | SaveResult.ret false t => ⟨[Reply.notSaved], t, false⟩

/-- Embeds `SELECT COUNT(*) FROM thanks_messages` (bot.py line 133). -/
def totalCount (table : List Row) : Nat := table.length

/-- The distinct recipients of the table in first-occurrence order:
the `GROUP BY recipient_username` keys. -/
def recipientsOf (table : List Row) : List (List Char) :=
  (table.map Row.recipient_username).dedup

/-- Rows whose `recipient_username` is `r`: the per-group
`COUNT(*)`. -/
def countFor (table : List Row) (r : List Char) : Nat :=
  table.countP (fun row => decide (row.recipient_username = r))

/-- The grouped rows of the top-recipients query before ordering. -/
def statsGroups (table : List Row) : List (List Char × Nat) :=
  (recipientsOf table).map (fun r => (r, countFor table r))

/-- The descending-by-count order of `ORDER BY cnt DESC` (ties left in
whatever order the grouping produced, as the SQL leaves unspecified). -/
def cntGE (a b : List Char × Nat) : Prop := b.2 ≤ a.2

instance : DecidableRel cntGE := fun a b => inferInstanceAs (Decidable (b.2 ≤ a.2))

instance : IsTotal (List Char × Nat) cntGE := ⟨fun a b => le_total b.2 a.2⟩

instance : IsTrans (List Char × Nat) cntGE := ⟨fun _ _ _ h1 h2 => le_trans h2 h1⟩

/-- Embeds the top-5 query of `show_stats` (bot.py lines 137-143):
`GROUP BY recipient_username ORDER BY cnt DESC LIMIT 5`. -/
def topRecipients (table : List Row) : List (List Char × Nat) :=
  (List.insertionSort cntGE (statsGroups table)).take 5

/-- Embeds the `show_stats` handler (bot.py lines 125-159).  When
connecting fails, the `except` block replies with the
stats-unavailable notice, after which the `finally` block's
`if conn:` raises `UnboundLocalError` on the never-assigned `conn`,
and that exception escapes the handler (`escaped := true`).  When a
query fails after connecting, `conn` is bound, so the handler replies
and returns normally. -/
def show_stats (db : StatsDB) (table : List Row) : HandlerResult :=
  if db.connectOk then
    if db.queryOk then
      ⟨[Reply.statsReply (totalCount table) (topRecipients table)], table, false⟩
    else ⟨[Reply.statsUnavailable], table, false⟩
  else ⟨[Reply.statsUnavailable], table, true⟩

/-! ### Helper lemmas about the Python string primitives -/

theorem pyTokens_nil_iff (s : List Char) : pyTokens s = [] ↔ s.dropWhile isPySpace = [] := by
  induction s with
  | nil => simp [pyTokens]
  | cons c cs ih =>
    by_cases h : isPySpace c
    · simp [pyTokens, h, List.dropWhile_cons, ih]
    · simp [pyTokens, h, List.dropWhile_cons]

theorem pyTokens_dropWhile (s : List Char) : pyTokens (s.dropWhile isPySpace) = pyTokens s := by
  induction s with
  | nil => rfl
  | cons c cs ih =>
    by_cases h : isPySpace c = true
    · rw [List.dropWhile_cons, if_pos h, ih]
      simp [pyTokens, h]
    · have h' : isPySpace c = false := by simpa using h
      simp [List.dropWhile_cons, h']

theorem dropWhile_head_false {α : Type} (p : α → Bool) :
    ∀ {l : List α} {c : α} {cs : List α}, List.dropWhile p l = c :: cs → p c = false := by
  intro l
  induction l with
  | nil => intro c cs h; simp at h
  | cons x xs ih =>
    intro c cs h
    rw [List.dropWhile_cons] at h
    by_cases hx : p x = true
    · rw [if_pos hx] at h
      exact ih h
    · rw [if_neg hx] at h
      injection h with h1 _
      subst h1
      simpa using hx

theorem dropWhile_idem {α : Type} (p : α → Bool) (l : List α) :
    (l.dropWhile p).dropWhile p = l.dropWhile p := by
  cases h : l.dropWhile p with
  | nil => rfl
  | cons c cs =>
    rw [List.dropWhile_cons]
    simp [dropWhile_head_false p h]

theorem mem_dropWhile_of_mem {α : Type} (p : α → Bool) {c : α} {l : List α}
    (hc : c ∈ l) (hp : p c = false) : c ∈ l.dropWhile p := by
  have happ : l.takeWhile p ++ l.dropWhile p = l := List.takeWhile_append_dropWhile p l
  rw [← happ] at hc
  rcases List.mem_append.mp hc with h1 | h1
  · have := List.mem_takeWhile_imp h1
    simp [hp] at this
  · exact h1

theorem dropWhile_eq_self_of_all {α : Type} (p : α → Bool) {l : List α}
    (h : ∀ c ∈ l, p c = false) : l.dropWhile p = l := by
  cases l with
  | nil => rfl
  | cons x xs => simp [List.dropWhile_cons, h x (List.mem_cons_self x xs)]

theorem pyStrip_eq_self {l : List Char} (h : ∀ c ∈ l, isPySpace c = false) :
    pyStrip l = l := by
  unfold pyStrip
  rw [dropWhile_eq_self_of_all _ h,
    dropWhile_eq_self_of_all _ (fun c hc => h c (List.mem_reverse.mp hc)),
    List.reverse_reverse]

theorem mem_pyStrip {c : Char} {l : List Char} (hc : c ∈ l) (hp : isPySpace c = false) :
    c ∈ pyStrip l := by
  unfold pyStrip
  rw [List.mem_reverse]
  exact mem_dropWhile_of_mem _ (List.mem_reverse.mpr (mem_dropWhile_of_mem _ hc hp)) hp

theorem pyStrip_ne_nil {c : Char} {l : List Char} (hc : c ∈ l) (hp : isPySpace c = false) :
    pyStrip l ≠ [] := by
  intro h
  have := mem_pyStrip hc hp
  rw [h] at this
  cases this

theorem pyStrip_dropWhile (l : List Char) :
    pyStrip (l.dropWhile isPySpace) = pyStrip l := by
  unfold pyStrip
  rw [dropWhile_idem]

theorem firstTok_no_space (s : List Char) : ∀ x ∈ firstTok s, isPySpace x = false := by
  intro x hx
  have := List.mem_takeWhile_imp hx
  simpa using this

theorem pyStrip_firstTok (s : List Char) : pyStrip (firstTok s) = firstTok s :=
  pyStrip_eq_self (firstTok_no_space s)

theorem restTok_facts {s : List Char} (h : restTok s ≠ []) :
    pyStrip (restTok s) ≠ [] ∧ pyStrip (pyStrip (restTok s)) ≠ [] := by
  cases hr : restTok s with
  | nil => exact absurd hr h
  | cons c cs =>
    have hr' : (rawRemainder s).dropWhile isPySpace = c :: cs := hr
    have hc : isPySpace c = false := dropWhile_head_false isPySpace hr'
    have hmem : c ∈ c :: cs := List.mem_cons_self c cs
    exact ⟨pyStrip_ne_nil hmem hc, pyStrip_ne_nil (mem_pyStrip hmem hc) hc⟩

/-- The bridge between the specification's token view (`pyTokens`) and
the code's `split(maxsplit=1)`: a string has no token, one token, or
at least two, and `pySplitMax1` returns correspondingly zero, one, or
two parts, the first part being the first token. -/
theorem pySplitMax1_shape (s : List Char) :
    (pyTokens s = [] ∧ pySplitMax1 s = [])
    ∨ (pyTokens s = [firstTok s] ∧ pySplitMax1 s = [firstTok s])
    ∨ ((pyTokens s).head? = some (firstTok s) ∧ 2 ≤ (pyTokens s).length ∧
       restTok s ≠ [] ∧ pySplitMax1 s = [firstTok s, restTok s]) := by
  cases hs1 : s.dropWhile isPySpace with
  | nil =>
    exact Or.inl ⟨(pyTokens_nil_iff s).mpr hs1, by simp [pySplitMax1, hs1]⟩
  | cons c cs =>
    have hc : isPySpace c = false := dropWhile_head_false isPySpace hs1
    have hfirst : firstTok s = c :: cs.takeWhile (fun x => !isPySpace x) := by
      simp [firstTok, hs1, List.takeWhile_cons, hc]
    have hraw : rawRemainder s = cs.dropWhile (fun x => !isPySpace x) := by
      simp [rawRemainder, hs1, List.dropWhile_cons, hc]
    have hrt : pyTokens (restTok s) = pyTokens (cs.dropWhile (fun x => !isPySpace x)) := by
      simp only [restTok]
      rw [pyTokens_dropWhile, hraw]
    have htok : pyTokens s = firstTok s :: pyTokens (restTok s) := by
      rw [← pyTokens_dropWhile s, hs1, hrt, hfirst]
      simp [pyTokens, hc]
    have hne : s.dropWhile isPySpace ≠ [] := by rw [hs1]; simp
    by_cases hrest : restTok s = []
    · refine Or.inr (Or.inl ⟨?_, by simp [pySplitMax1, hne, hrest]⟩)
      rw [htok, hrest]
      simp [pyTokens]
    · refine Or.inr (Or.inr ⟨?_, ?_, hrest, by simp [pySplitMax1, hne, hrest]⟩)
      · rw [htok]; rfl
      · have htne : pyTokens (restTok s) ≠ [] := by
          intro hnil
          have h1 := (pyTokens_nil_iff (restTok s)).mp hnil
          have h2 : (restTok s).dropWhile isPySpace = restTok s := by
            simp only [restTok]
            exact dropWhile_idem _ _
          rw [h2] at h1
          exact hrest h1
        rw [htok]
        cases hpt : pyTokens (restTok s) with
        | nil => exact absurd hpt htne
        | cons x xs => simp only [List.length_cons]; omega

theorem split_pair_facts {s a b : List Char} (h : pySplitMax1 s = [a, b]) :
    2 ≤ (pyTokens s).length ∧ (pyTokens s).head? = some a ∧
    a = firstTok s ∧ b = restTok s := by
  rcases pySplitMax1_shape s with ⟨_, h1⟩ | ⟨_, h1⟩ | ⟨h1, h2, _, h3⟩
  · rw [h1] at h; cases h
  · rw [h1] at h; cases h
  · rw [h3] at h
    injection h with ha h'
    injection h' with hb _
    subst ha
    subst hb
    exact ⟨h2, h1, rfl, rfl⟩

theorem split_two_of_tokens {s : List Char} (h2 : 2 ≤ (pyTokens s).length) :
    pySplitMax1 s = [firstTok s, restTok s] ∧
    (pyTokens s).head? = some (firstTok s) ∧ restTok s ≠ [] := by
  rcases pySplitMax1_shape s with ⟨h1, _⟩ | ⟨h1, _⟩ | ⟨h1, _, hr, h3⟩
  · rw [h1] at h2; simp at h2
  · rw [h1] at h2; simp at h2
  · exact ⟨h3, h1, hr⟩

theorem split_small_of_tokens {s : List Char} (h : (pyTokens s).length < 2) :
    pySplitMax1 s = [] ∨ pySplitMax1 s = [firstTok s] := by
  rcases pySplitMax1_shape s with ⟨_, h1⟩ | ⟨_, h1⟩ | ⟨_, h2, _, _⟩
  · exact Or.inl h1
  · exact Or.inr h1
  · omega

theorem tokens_one_of_split_single {s a : List Char} (h : pySplitMax1 s = [a]) :
    pyTokens s = [a] := by
  rcases pySplitMax1_shape s with ⟨_, h1⟩ | ⟨ht, h1⟩ | ⟨_, _, _, h1⟩
  · rw [h1] at h; cases h
  · rw [h1] at h
    injection h with ha _
    rw [ha] at ht
    exact ht
  · rw [h1] at h; cases h

theorem tokens_two_of_split_pair {s a b : List Char} (h : pySplitMax1 s = [a, b]) :
    2 ≤ (pyTokens s).length ∧ (pyTokens s).head? = some a :=
  ⟨(split_pair_facts h).1, (split_pair_facts h).2.1⟩

theorem parse_missing_of_tokens {txt : List Char}
    (h : (pyTokens (pyStrip txt)).length < 2) : parse txt = ParseResult.missingBody := by
  rcases split_small_of_tokens h with h1 | h1 <;> simp [parse, h1]

theorem parse_two_eq {txt : List Char} (h2 : 2 ≤ (pyTokens (pyStrip txt)).length) :
    parse txt =
      if (firstTok (pyStrip txt)).head? = some '@' then
        ParseResult.ok (firstTok (pyStrip txt)) (pyStrip (restTok (pyStrip txt)))
      else ParseResult.invalidRecipientFormat := by
  obtain ⟨hsplit, -, -⟩ := split_two_of_tokens h2
  simp [parse, hsplit, pyStrip_firstTok]

theorem parse_ok_inv {txt u m : List Char} (h : parse txt = ParseResult.ok u m) :
    u.head? = some '@' ∧ u = firstTok (pyStrip txt) ∧
    m = pyStrip (restTok (pyStrip txt)) ∧ m ≠ [] ∧ pyStrip m ≠ [] := by
  cases hs : pySplitMax1 (pyStrip txt) with
  | nil => simp [parse, hs] at h
  | cons a l =>
    cases l with
    | nil => simp [parse, hs] at h
    | cons b l2 =>
      cases l2 with
      | cons x xs => simp [parse, hs] at h
      | nil =>
        obtain ⟨-, -, ha, hb⟩ := split_pair_facts hs
        subst ha
        subst hb
        by_cases hat : (firstTok (pyStrip txt)).head? = some '@'
        · rw [parse_two_eq (split_pair_facts hs).1, if_pos hat] at h
          injection h with hu hm
          subst hu
          subst hm
          obtain ⟨hm1, hm2⟩ := restTok_facts (split_two_of_tokens (split_pair_facts hs).1).2.2
          exact ⟨hat, rfl, rfl, hm1, hm2⟩
        · rw [parse_two_eq (split_pair_facts hs).1, if_neg hat] at h
          cases h

/-! ### Claim theorems -/

/-- C1: For every input text that, after trimming, contains at least
two whitespace-separated tokens and whose first token starts with
`'@'`, the parse step returns the first token verbatim (including the
`'@'` prefix) as the recipient and the remaining text trimmed of
surrounding whitespace as the body.  `parse` is a Lean function, hence
deterministic and free of side effects. -/
theorem parse_two_tokens_at_handle (txt tk : List Char)
    (h2 : 2 ≤ (pyTokens (pyStrip txt)).length)
    (hhd : (pyTokens (pyStrip txt)).head? = some tk)
    (hat : tk.head? = some '@') :
    parse txt = ParseResult.ok tk (pyStrip (rawRemainder (pyStrip txt))) := by
  obtain ⟨-, hh, -⟩ := split_two_of_tokens h2
  rw [hhd] at hh
  injection hh with htk
  rw [parse_two_eq h2, ← htk, if_pos hat]
  simp only [restTok, pyStrip_dropWhile]

theorem parse_two_tokens_at_handle_witness :
    parse (String.toList "@kolya thanks for the help") =
      ParseResult.ok (String.toList "@kolya")
        (pyStrip (rawRemainder (pyStrip (String.toList "@kolya thanks for the help")))) ∧
    pyStrip (rawRemainder (pyStrip (String.toList "@kolya thanks for the help"))) =
      String.toList "thanks for the help" := by
  have hs : pySplitMax1 (pyStrip (String.toList "@kolya thanks for the help")) =
      [String.toList "@kolya", String.toList "thanks for the help"] := by decide
  have ht := tokens_two_of_split_pair hs
  exact ⟨parse_two_tokens_at_handle _ _ ht.1 ht.2 (by decide), by decide⟩

/-- C2: For every input text that, after trimming, splits into fewer
than two whitespace-separated parts, the parse step fails with
MissingBody, the handler replies with the fixed missing-recipient/body
notice, and no row is inserted (the table is unchanged, whatever the
database oracle would have answered). -/
theorem too_few_tokens_missing_body (ev : MsgEvent) (db : SaveDB)
    (table : List Row) (now : Timestamp)
    (h : (pyTokens (pyStrip ev.text)).length < 2) :
    parse ev.text = ParseResult.missingBody ∧
    process_message ev db table now = ⟨[Reply.missingBody], table, false⟩ := by
  have hp := parse_missing_of_tokens h
  exact ⟨hp, by simp [process_message, hp]⟩

theorem too_few_tokens_missing_body_witness :
    parse (String.toList "hello") = ParseResult.missingBody ∧
    process_message ⟨1, none, String.toList "hello"⟩ ⟨true, true⟩ [] ⟨⟨12, 10, 2026⟩, 0⟩ =
      ⟨[Reply.missingBody], [], false⟩ := by
  have hs : pySplitMax1 (pyStrip (String.toList "hello")) = [String.toList "hello"] := by
    decide
  have h1 := tokens_one_of_split_single hs
  have h2 : (pyTokens (pyStrip (String.toList "hello"))).length < 2 := by
    rw [h1]; simp
  exact too_few_tokens_missing_body ⟨1, none, String.toList "hello"⟩ ⟨true, true⟩ []
    ⟨⟨12, 10, 2026⟩, 0⟩ h2

/-- C3 counterexample: on input "hello" the first whitespace-separated
token does not start with `'@'`, yet the parse step fails with
MissingBody, not InvalidRecipientFormat, because the too-few-parts
check runs first. -/
theorem nonhandle_single_token_not_invalid :
    (pyTokens (pyStrip (String.toList "hello"))).head? = some (String.toList "hello") ∧
    (String.toList "hello").head? ≠ some '@' ∧
    parse (String.toList "hello") = ParseResult.missingBody ∧
    parse (String.toList "hello") ≠ ParseResult.invalidRecipientFormat := by
  have hs : pySplitMax1 (pyStrip (String.toList "hello")) = [String.toList "hello"] := by
    decide
  have h1 := tokens_one_of_split_single hs
  exact ⟨by rw [h1]; rfl, by decide, by decide, by decide⟩

/-- C3 (amended): for every input text that, after trimming, contains
at least two whitespace-separated tokens and whose first token does
not start with `'@'`, the parse step fails with
InvalidRecipientFormat, the handler replies with the fixed
first-token-must-be-a-handle notice, and no row is inserted. -/
theorem nonhandle_first_token_invalid_recipient (ev : MsgEvent) (db : SaveDB)
    (table : List Row) (now : Timestamp) (tk : List Char)
    (h2 : 2 ≤ (pyTokens (pyStrip ev.text)).length)
    (hhd : (pyTokens (pyStrip ev.text)).head? = some tk)
    (hat : tk.head? ≠ some '@') :
    parse ev.text = ParseResult.invalidRecipientFormat ∧
    process_message ev db table now = ⟨[Reply.invalidRecipient], table, false⟩ := by
  obtain ⟨-, hh, -⟩ := split_two_of_tokens h2
  rw [hhd] at hh
  injection hh with htk
  have hp : parse ev.text = ParseResult.invalidRecipientFormat := by
    rw [parse_two_eq h2, ← htk, if_neg hat]
  exact ⟨hp, by simp [process_message, hp]⟩

theorem nonhandle_first_token_invalid_recipient_witness :
    parse (String.toList "friend thanks") = ParseResult.invalidRecipientFormat ∧
    process_message ⟨3, none, String.toList "friend thanks"⟩ ⟨true, true⟩ []
      ⟨⟨12, 10, 2026⟩, 0⟩ = ⟨[Reply.invalidRecipient], [], false⟩ := by
  have hs : pySplitMax1 (pyStrip (String.toList "friend thanks")) =
      [String.toList "friend", String.toList "thanks"] := by decide
  have ht := tokens_two_of_split_pair hs
  exact nonhandle_first_token_invalid_recipient ⟨3, none, String.toList "friend thanks"⟩
    ⟨true, true⟩ [] ⟨⟨12, 10, 2026⟩, 0⟩ (String.toList "friend") ht.1 ht.2 (by decide)

/-- C10: For every inbound text that, after trimming, is a single
whitespace-separated token, the handler replies with the missing-body
notice and inserts nothing, with no hypothesis on whether the token
starts with `'@'`: the too-few-parts check precedes the `'@'`-prefix
check, so the missing-body outcome takes precedence. -/
theorem single_token_missing_body_precedence (ev : MsgEvent) (db : SaveDB)
    (table : List Row) (now : Timestamp)
    (h : (pyTokens (pyStrip ev.text)).length = 1) :
    parse ev.text = ParseResult.missingBody ∧
    process_message ev db table now = ⟨[Reply.missingBody], table, false⟩ := by
  have hp := @parse_missing_of_tokens ev.text (by omega)
  exact ⟨hp, by simp [process_message, hp]⟩

theorem single_token_missing_body_precedence_witness :
    (String.toList "@kolya").head? = some '@' ∧
    parse (String.toList "@kolya") = ParseResult.missingBody ∧
    process_message ⟨2, none, String.toList "@kolya"⟩ ⟨true, true⟩ [] ⟨⟨12, 10, 2026⟩, 0⟩ =
      ⟨[Reply.missingBody], [], false⟩ := by
  have hs : pySplitMax1 (pyStrip (String.toList "@kolya")) = [String.toList "@kolya"] := by
    decide
  have h1 : (pyTokens (pyStrip (String.toList "@kolya"))).length = 1 := by
    rw [tokens_one_of_split_single hs]; rfl
  exact ⟨by decide, single_token_missing_body_precedence ⟨2, none, String.toList "@kolya"⟩
    ⟨true, true⟩ [] ⟨⟨12, 10, 2026⟩, 0⟩ h1⟩

/-- C4 counterexample: on input "@ hello" the handler accepts and
inserts a row whose recipient_username is exactly "@": it begins with
'@' but is empty after the prefix, refuting the claimed invariant for
a row actually passed to the store's insert. -/
theorem bare_at_recipient_inserted :
    (process_message ⟨4, none, String.toList "@ hello"⟩ ⟨true, true⟩ []
        ⟨⟨12, 10, 2026⟩, 0⟩).table.map Row.recipient_username = [['@']] ∧
    (['@'] : List Char).drop 1 = [] := by
  exact ⟨by decide, rfl⟩

/-- C4 (amended): every row the handler ever passes to the store's
insert has a recipient_username beginning with '@' (though possibly
empty after that prefix) and a message_text that is non-empty and
non-empty after trimming; rows already in the table are untouched. -/
theorem inserted_rows_invariant (ev : MsgEvent) (db : SaveDB) (table : List Row)
    (now : Timestamp) (row : Row)
    (hmem : row ∈ (process_message ev db table now).table) :
    row ∈ table ∨
    (row.recipient_username.head? = some '@' ∧
     row.message_text ≠ [] ∧ pyStrip row.message_text ≠ []) := by
  cases hp : parse ev.text with
  | missingBody =>
    simp [process_message, hp] at hmem
    exact Or.inl hmem
  | invalidRecipientFormat =>
    simp [process_message, hp] at hmem
    exact Or.inl hmem
  | ok u m =>
    obtain ⟨hat, -, -, hm1, hm2⟩ := parse_ok_inv hp
    by_cases hc : db.connectOk = true
    · by_cases hx : db.execOk = true
      · have htab : (process_message ev db table now).table = table ++ [mkRow ev u m now] := by
          simp [process_message, hp, save_to_db, hc, hx]
        rw [htab] at hmem
        rcases List.mem_append.mp hmem with h1 | h1
        · exact Or.inl h1
        · have hrow : row = mkRow ev u m now := List.mem_singleton.mp h1
          subst hrow
          exact Or.inr ⟨hat, hm1, hm2⟩
      · have htab : (process_message ev db table now).table = table := by
          simp [process_message, hp, save_to_db, hc, hx]
        rw [htab] at hmem
        exact Or.inl hmem
    · have htab : (process_message ev db table now).table = table := by
        simp [process_message, hp, save_to_db, hc]
      rw [htab] at hmem
      exact Or.inl hmem

theorem inserted_rows_invariant_witness :
    mkRow ⟨5, none, String.toList "@kolya thanks"⟩ (String.toList "@kolya")
        (String.toList "thanks") ⟨⟨12, 10, 2026⟩, 0⟩ ∈ ([] : List Row) ∨
    ((mkRow ⟨5, none, String.toList "@kolya thanks"⟩ (String.toList "@kolya")
        (String.toList "thanks") ⟨⟨12, 10, 2026⟩, 0⟩).recipient_username.head? = some '@' ∧
     (mkRow ⟨5, none, String.toList "@kolya thanks"⟩ (String.toList "@kolya")
        (String.toList "thanks") ⟨⟨12, 10, 2026⟩, 0⟩).message_text ≠ [] ∧
     pyStrip (mkRow ⟨5, none, String.toList "@kolya thanks"⟩ (String.toList "@kolya")
        (String.toList "thanks") ⟨⟨12, 10, 2026⟩, 0⟩).message_text ≠ []) :=
  inserted_rows_invariant ⟨5, none, String.toList "@kolya thanks"⟩ ⟨true, true⟩ []
    ⟨⟨12, 10, 2026⟩, 0⟩
    (mkRow ⟨5, none, String.toList "@kolya thanks"⟩ (String.toList "@kolya")
      (String.toList "thanks") ⟨⟨12, 10, 2026⟩, 0⟩) (by decide)

/-- C5: for every successful insert, the appended row's message_date
is the date of the event's clock — the same calendar date echoed in
the confirmation reply — and its created_at is the event's clock
instant (the acceptance instant). -/
theorem accepted_insert_dates (ev : MsgEvent) (db : SaveDB) (table : List Row)
    (now : Timestamp) (u m : List Char)
    (hp : parse ev.text = ParseResult.ok u m)
    (hc : db.connectOk = true) (hx : db.execOk = true) :
    process_message ev db table now =
      ⟨[Reply.accepted u m now.date], table ++ [mkRow ev u m now], false⟩ ∧
    (mkRow ev u m now).message_date = now.date ∧
    (mkRow ev u m now).created_at = now := by
  refine ⟨?_, rfl, rfl⟩
  simp [process_message, hp, save_to_db, hc, hx]

theorem accepted_insert_dates_witness :
    process_message ⟨6, some (String.toList "vasya"), String.toList "@kolya thanks"⟩
        ⟨true, true⟩ [] ⟨⟨12, 10, 2026⟩, 0⟩ =
      ⟨[Reply.accepted (String.toList "@kolya") (String.toList "thanks") ⟨12, 10, 2026⟩],
        [] ++ [mkRow ⟨6, some (String.toList "vasya"), String.toList "@kolya thanks"⟩
          (String.toList "@kolya") (String.toList "thanks") ⟨⟨12, 10, 2026⟩, 0⟩], false⟩ ∧
    (mkRow ⟨6, some (String.toList "vasya"), String.toList "@kolya thanks"⟩
        (String.toList "@kolya") (String.toList "thanks")
        ⟨⟨12, 10, 2026⟩, 0⟩).message_date = ⟨12, 10, 2026⟩ ∧
    (mkRow ⟨6, some (String.toList "vasya"), String.toList "@kolya thanks"⟩
        (String.toList "@kolya") (String.toList "thanks")
        ⟨⟨12, 10, 2026⟩, 0⟩).created_at = ⟨⟨12, 10, 2026⟩, 0⟩ :=
  accepted_insert_dates ⟨6, some (String.toList "vasya"), String.toList "@kolya thanks"⟩
    ⟨true, true⟩ [] ⟨⟨12, 10, 2026⟩, 0⟩ (String.toList "@kolya") (String.toList "thanks")
    (by decide) rfl rfl

/-- C6: for every table state, the stats queries return the total row
count together with a top-recipients sequence ordered descending by
per-recipient message count, containing exactly min(5, number of
distinct recipients) entries, each entry carrying its recipient's true
count; on the empty table the total is 0 and the list is empty. -/
theorem stats_total_and_top5 (table : List Row) :
    totalCount table = table.length ∧
    List.Sorted cntGE (topRecipients table) ∧
    (topRecipients table).length = min 5 (recipientsOf table).length ∧
    (∀ p ∈ topRecipients table, p.1 ∈ recipientsOf table ∧ p.2 = countFor table p.1) ∧
    totalCount ([] : List Row) = 0 ∧ topRecipients ([] : List Row) = [] := by
  refine ⟨rfl, ?_, ?_, ?_, rfl, rfl⟩
  · exact List.Pairwise.sublist (List.take_sublist 5 _) (List.sorted_insertionSort cntGE _)
  · rw [topRecipients, List.length_take]
    congr 1
    rw [(List.perm_insertionSort cntGE _).length_eq, statsGroups, List.length_map]
  · intro p hp
    have h1 : p ∈ List.insertionSort cntGE (statsGroups table) := List.mem_of_mem_take hp
    have h2 : p ∈ statsGroups table := (List.perm_insertionSort cntGE _).mem_iff.mp h1
    obtain ⟨r, hr, hpr⟩ := List.mem_map.mp h2
    rw [← hpr]
    exact ⟨hr, rfl⟩

/-- C7: a successful save appends exactly one row for the parsed
recipient, so a subsequent run of the stats queries sees the total
greater by exactly 1 and that recipient's count greater by exactly 1. -/
theorem insert_increments_stats (db : SaveDB) (ev : MsgEvent) (u m : List Char)
    (table t2 : List Row) (now : Timestamp)
    (h : save_to_db db ev u m table now = SaveResult.ret true t2) :
    totalCount t2 = totalCount table + 1 ∧
    countFor t2 u = countFor table u + 1 := by
  have ht2 : t2 = table ++ [mkRow ev u m now] := by
    by_cases hc : db.connectOk = true
    · by_cases hx : db.execOk = true
      · simp [save_to_db, hc, hx] at h
        exact h.symm
      · simp [save_to_db, hc, hx] at h
    · simp [save_to_db, hc] at h
  subst ht2
  constructor
  · simp [totalCount]
  · simp [countFor, List.countP_append, List.countP_cons, mkRow]

theorem insert_increments_stats_witness :
    totalCount ([] ++ [mkRow ⟨7, none, String.toList "@kolya thanks"⟩
        (String.toList "@kolya") (String.toList "thanks") ⟨⟨12, 10, 2026⟩, 0⟩]) =
      totalCount ([] : List Row) + 1 ∧
    countFor ([] ++ [mkRow ⟨7, none, String.toList "@kolya thanks"⟩
        (String.toList "@kolya") (String.toList "thanks") ⟨⟨12, 10, 2026⟩, 0⟩])
        (String.toList "@kolya") =
      countFor ([] : List Row) (String.toList "@kolya") + 1 :=
  insert_increments_stats ⟨true, true⟩ ⟨7, none, String.toList "@kolya thanks"⟩
    (String.toList "@kolya") (String.toList "thanks") []
    ([] ++ [mkRow ⟨7, none, String.toList "@kolya thanks"⟩ (String.toList "@kolya")
      (String.toList "thanks") ⟨⟨12, 10, 2026⟩, 0⟩]) ⟨⟨12, 10, 2026⟩, 0⟩ rfl

/-- C8: divergence from the claim at a connection failure.  When
`psycopg2.connect` raises inside `save_to_db`, the `finally` block's
`if conn:` raises UnboundLocalError on the never-assigned `conn`,
discarding the `except` block's pending `return False`, so the call
raises instead of reporting failure; `process_message` catches that
exception and replies with the generic processing-error notice, not
the fixed "not saved, storage error" notice the claim requires for
any connection failure.  (For a write rejection after a successful
connect — third conjunct — the claimed notice is sent.)  In both
cases no row is inserted and nothing is retried. -/
theorem connect_failure_generic_notice :
    save_to_db ⟨false, true⟩ ⟨8, none, String.toList "@kolya thanks"⟩
        (String.toList "@kolya") (String.toList "thanks") [] ⟨⟨12, 10, 2026⟩, 0⟩ =
      SaveResult.exc [] ∧
    process_message ⟨8, none, String.toList "@kolya thanks"⟩ ⟨false, true⟩ []
        ⟨⟨12, 10, 2026⟩, 0⟩ = ⟨[Reply.processingError], [], false⟩ ∧
    process_message ⟨8, none, String.toList "@kolya thanks"⟩ ⟨true, false⟩ []
        ⟨⟨12, 10, 2026⟩, 0⟩ = ⟨[Reply.notSaved], [], false⟩ ∧
    Reply.processingError ≠ Reply.notSaved := by
  exact ⟨rfl, by decide, by decide, by decide⟩

/-- C9: divergence from the claim on the stats command with a
connection failure.  `show_stats` still produces exactly one outbound
reply (the stats-unavailable notice sent from its `except` block), but
afterwards the `finally` block's `if conn:` raises UnboundLocalError
on the never-assigned `conn`, and that exception escapes the handler
instead of being fully recovered within it. -/
theorem stats_connect_failure_escapes :
    show_stats ⟨false, true⟩ [] = ⟨[Reply.statsUnavailable], [], true⟩ ∧
    (show_stats ⟨false, true⟩ []).escaped = true ∧
    (show_stats ⟨false, true⟩ []).replies.length = 1 := by
  exact ⟨rfl, rfl, rfl⟩
